import Mathlib

/-! Shallow embedding of the Ball Blaster game core.  The main revision is
`src/GameScreen.tsx`; the weighted brick-type sampler comes from the procedural
revision in `src/unnamed/part_000`.  Geometry and time are modelled over ℚ
(the JavaScript numbers), device-derived constants are collected in `Config`,
and the React state updates are modelled as pure functions on `GameSim`.
A note on aliasing: in the source, `updatedBricks = [...prevBricks]` copies
object references, and `brick.hits--` mutates the shared object, so hit-count
decrements persist even when the setter returns `prevBricks`; the model
therefore always keeps the decremented brick list. -/

/-- Game status, mirroring `gameStatus: 'playing' | 'won' | 'lost'`. -/
inductive GameStatus where
  | playing
  | won
  | lost
deriving Repr, DecidableEq

/-- Mirror of the `Ball` interface. -/
structure Ball where
  id : ℕ
  x : ℚ
  y : ℚ
  dx : ℚ
  dy : ℚ
  launched : Bool
deriving Repr, DecidableEq

/-- Mirror of the `Brick` interface (`shape` is a plain string tag here). -/
structure Brick where
  id : ℕ
  shape : String
  x : ℚ
  y : ℚ
  width : ℚ
  height : ℚ
  visible : Bool
  hits : ℤ
  color : String
  points : ℤ
  givesBall : Bool
deriving Repr, DecidableEq

/-- Device/design-derived constants of `GameScreen.tsx` (they depend on
`Dimensions.get('window')`, so they are parameters of the model).  The
inter-launch delay `LAUNCH_DELAY = 150` ms is device-independent and is kept
as a literal in the definitions below. -/
structure Config where
  ballRadius : ℚ
  deviceWidth : ℚ
  headerHeight : ℚ
  launchY : ℚ
  lossLine : ℚ
  brickDropAmount : ℚ
  initialLaunchX : ℚ
  brickMargin : ℚ
  scale : ℚ
deriving Repr, DecidableEq

/-- Whole simulation state: the React `useState`/`useRef` cells of the
component, gathered into one record. -/
structure GameSim where
  balls : List Ball
  bricks : List Brick
  score : ℤ
  ballCount : ℕ
  isLaunching : Bool
  launchQueue : List Ball
  lastLaunchTime : ℚ
  lastBallX : ℚ
  lastTurnHadLaunch : Bool
  level : ℕ
  gameStatus : GameStatus
deriving Repr, DecidableEq

/-- Result of `updateBallPosition`: the new position, the (possibly flipped)
velocity written back into the mutable ball, and the index of the resolved
brick collision, if any. -/
structure MoveResult where
  newX : ℚ
  newY : ℚ
  dx : ℚ
  dy : ℚ
  hit : Option ℕ
deriving Repr, DecidableEq

/-- The axis-aligned overlap test from the brick loop of `updateBallPosition`. -/
def overlapsBrick (cfg : Config) (newX newY : ℚ) (b : Brick) : Prop :=
  b.x < newX + cfg.ballRadius ∧ newX - cfg.ballRadius < b.x + b.width ∧
  b.y < newY + cfg.ballRadius ∧ newY - cfg.ballRadius < b.y + b.height

instance (cfg : Config) (newX newY : ℚ) (b : Brick) :
    Decidable (overlapsBrick cfg newX newY b) := by
  unfold overlapsBrick; infer_instance

/-- The `for (let j = 0; ...; j++) ... !collidedWithBrick` scan: first visible
brick overlapping the moved ball, together with its index. -/
def findHitBrick (cfg : Config) (newX newY : ℚ) : ℕ → List Brick → Option (ℕ × Brick)
  | _, [] => none
  | j, b :: bs =>
    if b.visible = true ∧ overlapsBrick cfg newX newY b then some (j, b)
    else findHitBrick cfg newX newY (j + 1) bs

/-- The brick loop of `updateBallPosition` (lines 280-312), as a block over
the post-wall position `(newX1, newY1)` and velocity `(dx1, dy1)`: find the
first visible overlapping brick, determine the bounce side by minimal
penetration depth (ties broken left, right, top, bottom), flip one velocity
axis and recompute that coordinate from the ball's pre-move position. -/
def resolveBrickCollision (cfg : Config) (ball : Ball) (deltaSec : ℚ)
    (updatedBricks : List Brick) (newX1 newY1 dx1 dy1 : ℚ) : MoveResult :=
  match findHitBrick cfg newX1 newY1 0 updatedBricks with
  | none => ⟨newX1, newY1, dx1, dy1, none⟩
  | some (j, brick) =>
    let fromLeft := |newX1 + cfg.ballRadius - brick.x|
    let fromRight := |newX1 - cfg.ballRadius - (brick.x + brick.width)|
    let fromTop := |newY1 + cfg.ballRadius - brick.y|
    let fromBottom := |newY1 - cfg.ballRadius - (brick.y + brick.height)|
    let minOverlap := min (min (min fromLeft fromRight) fromTop) fromBottom
    if minOverlap = fromLeft ∨ minOverlap = fromRight then
      ⟨ball.x + (-dx1) * deltaSec, newY1, -dx1, dy1, some j⟩
    else
      ⟨newX1, ball.y + (-dy1) * deltaSec, dx1, -dy1, some j⟩

/-- Mirror of `updateBallPosition` (src/GameScreen.tsx lines 254-313): integrate
position, reflect on side walls and the header line, park at the launch line,
then resolve at most one brick collision by minimal penetration depth. -/
def updateBallPosition (cfg : Config) (ball : Ball) (deltaSec : ℚ)
    (updatedBricks : List Brick) : MoveResult :=
  let newX0 := ball.x + ball.dx * deltaSec
  let newY0 := ball.y + ball.dy * deltaSec
  let wallX : Prop := newX0 - cfg.ballRadius ≤ 0 ∨ cfg.deviceWidth ≤ newX0 + cfg.ballRadius
  let dx1 := if wallX then -ball.dx else ball.dx
  let newX1 := if wallX then ball.x + (-ball.dx) * deltaSec else newX0
  let wallY : Prop := newY0 - cfg.ballRadius ≤ cfg.headerHeight
  let dy1 := if wallY then -ball.dy else ball.dy
  let newY1 := if wallY then ball.y + (-ball.dy) * deltaSec else newY0
  if cfg.launchY ≤ newY1 then
    ⟨newX1, cfg.launchY, dx1, dy1, none⟩
  else
    resolveBrickCollision cfg ball deltaSec updatedBricks newX1 newY1 dx1 dy1

/-- The per-tick accumulator of `updateBallsAndBricks`: the evolving brick
array, the shared launcher anchor, the score and ball-count cells, and the
`allBallsReturned` flag. -/
structure TickAcc where
  bricks : List Brick
  lastBallX : ℚ
  score : ℤ
  ballCount : ℕ
  allReturned : Bool
deriving Repr, DecidableEq

/-- The collision branch of `updateBallsAndBricks` (lines 218-230):
`brick.hits--`, and on reaching zero clear visibility, add the points and
grant a bonus ball when flagged. -/
def applyBrickHit (acc : TickAcc) (j : ℕ) : TickAcc :=
  match acc.bricks.get? j with
  | none => acc
  | some brick =>
    if brick.hits - 1 ≤ 0 then
      { acc with
        bricks := acc.bricks.set j { brick with hits := brick.hits - 1, visible := false },
        score := acc.score + brick.points,
        ballCount := acc.ballCount + (if brick.givesBall then 1 else 0) }
    else
      { acc with bricks := acc.bricks.set j { brick with hits := brick.hits - 1 } }

/-- One iteration of the ball loop of `updateBallsAndBricks` for the ball at
the current index. -/
def stepBall (cfg : Config) (deltaSec : ℚ) (acc : TickAcc) (ball : Ball) :
    Ball × TickAcc :=
  if ball.launched = false then (ball, acc)
  else
    let acc0 := { acc with allReturned := false }
    let r := updateBallPosition cfg ball deltaSec acc0.bricks
    if cfg.launchY ≤ r.newY then
      ({ ball with x := r.newX, y := cfg.launchY, dx := r.dx, dy := r.dy, launched := false },
       { acc0 with lastBallX := r.newX })
    else
      let acc1 := match r.hit with
        | some j => applyBrickHit acc0 j
        | none => acc0
      ({ ball with x := r.newX, y := r.newY, dx := r.dx, dy := r.dy }, acc1)

/-- The ball loop itself, processed in index order against the evolving
accumulator. -/
def runBalls (cfg : Config) (deltaSec : ℚ) : TickAcc → List Ball → List Ball × TickAcc
  | acc, [] => ([], acc)
  | acc, b :: bs =>
    let p := stepBall cfg deltaSec acc b
    let q := runBalls cfg deltaSec p.2 bs
    (p.1 :: q.1, q.2)

/-- Mirror of `endTurn`: stop launching, drop the queue, and park every ball's
x at the current anchor. -/
def endTurn (s : GameSim) : GameSim :=
  { s with
    isLaunching := false,
    launchQueue := [],
    balls := s.balls.map (fun b => { b with x := s.lastBallX }) }

/-- Mirror of `updateBallsAndBricks` (lines 194-244): run every launched ball
one step, apply collision effects, and end the turn when all balls were
already parked while a launch sequence was active. -/
def updateBallsAndBricks (cfg : Config) (s : GameSim) (deltaTime : ℚ) : GameSim :=
  let deltaSec := deltaTime / 1000
  let p := runBalls cfg deltaSec ⟨s.bricks, s.lastBallX, s.score, s.ballCount, true⟩ s.balls
  let s1 := { s with
    balls := p.1, bricks := p.2.bricks, lastBallX := p.2.lastBallX,
    score := p.2.score, ballCount := p.2.ballCount }
  if p.2.allReturned = true ∧ s.isLaunching = true then endTurn s1 else s1

/-- The `setBalls` update inside `handleQueuedLaunches`: mark the queued ball
(found by id) as launched. -/
def launchBall (balls : List Ball) (ballToLaunch : Ball) : List Ball :=
  match balls.findIdx? (fun b => b.id == ballToLaunch.id) with
  | some idx => balls.set idx { ballToLaunch with launched := true }
  | none => balls

/-- Mirror of `handleQueuedLaunches` (lines 174-192): while a launch sequence
is active and at least 150 ms have passed since the previous release, release
exactly the head of the queue. -/
def handleQueuedLaunches (s : GameSim) (timestamp : ℚ) : GameSim :=
  match s.launchQueue with
  | [] => s
  | ballToLaunch :: rest =>
    if s.isLaunching = true ∧ 150 ≤ timestamp - s.lastLaunchTime then
      { s with
        launchQueue := rest,
        balls := launchBall s.balls ballToLaunch,
        lastLaunchTime := timestamp }
    else s

/-- Mirror of `recallBalls` (lines 315-326): park every ball at the anchor with
zero velocity, stop launching and drop the queue. -/
def recallBalls (cfg : Config) (s : GameSim) : GameSim :=
  { s with
    balls := s.balls.map (fun b =>
      { b with x := s.lastBallX, y := cfg.launchY, dx := 0, dy := 0, launched := false }),
    isLaunching := false,
    launchQueue := [] }

/-- Mirror of the release path of `onGestureEnd` (lines 344-364); the
UI-only guards (`isGameActive`, `touchActive`) are outside the core.  The
shared velocity vector is taken as an argument (it is `cos/sin` of the aim
angle in the source, computed by the input layer). -/
def release (s : GameSim) (dx dy : ℚ) (now : ℚ) : GameSim :=
  if s.isLaunching = true ∨ s.balls.any (fun b => b.launched) = true then s
  else
    let unlaunched := s.balls.filter (fun b => !b.launched)
    if unlaunched.isEmpty then s
    else
      { s with
        lastTurnHadLaunch := true,
        launchQueue := unlaunched.map (fun b => { b with dx := dx, dy := dy }),
        isLaunching := true,
        lastLaunchTime := now - 150 }

/-- The per-turn descent (the `setBricks` map in the turn-end effect, lines
382-393): add the fixed drop amount to every brick's y, visible or not. -/
def descendBricks (cfg : Config) (bricks : List Brick) : List Brick :=
  bricks.map (fun brick => { brick with y := brick.y + cfg.brickDropAmount })

/-- Mirror of the turn-end `useEffect` (lines 366-396): when all balls are
parked, no launch sequence is active and the turn had a launch, either declare
the win (all bricks gone, level non-empty), or descend the bricks and check
the loss line. -/
def checkTurnEnd (cfg : Config) (s : GameSim) : GameSim :=
  if s.gameStatus ≠ GameStatus.playing then s
  else
    let allBallsReturned := s.balls.all (fun b => !b.launched)
    let visibleBricks := s.bricks.filter (fun b => b.visible)
    if allBallsReturned = true ∧ s.isLaunching = false ∧ s.lastTurnHadLaunch = true then
      let s1 := { s with lastTurnHadLaunch := false }
      if 0 < s.bricks.length ∧ visibleBricks.length = 0 then
        { s1 with gameStatus := GameStatus.won }
      else if 0 < visibleBricks.length then
        let newBricks := descendBricks cfg s.bricks
        if newBricks.any (fun b => b.visible && decide (cfg.lossLine < b.y)) = true then
          { s1 with bricks := newBricks, gameStatus := GameStatus.lost }
        else
          { s1 with bricks := newBricks }
      else s1
    else s

/-- One frame of `updateGame` followed by the React effects: queued launches,
the physics tick, then the turn-end check (the effect re-runs after every
state change; it is a no-op whenever its gate fails). -/
def advanceFrame (cfg : Config) (s : GameSim) (timestamp deltaTime : ℚ) : GameSim :=
  checkTurnEnd cfg (updateBallsAndBricks cfg (handleQueuedLaunches s timestamp) deltaTime)

/-- Brick descriptor of a data-driven level row (`levels.json` entries). -/
structure BrickDef where
  shape : Option String
  hits : ℤ
  color : String
  points : ℤ
  givesBall : Bool
deriving Repr, DecidableEq

/-- One level of the level source: its rows of brick descriptors. -/
structure LevelData where
  rows : List (List BrickDef)
deriving Repr, DecidableEq

/-- The `brickDef.shape || 'square'` default. -/
def defaultShape (o : Option String) : String :=
  match o with
  | some sh => sh
  | none => "square"

/-- The `Array.from({length: ballCount}, ...)` initial ball pool. -/
def mkInitialBalls (cfg : Config) (count : ℕ) : List Ball :=
  (List.range count).map (fun i => ⟨i, cfg.initialLaunchX, cfg.launchY, 0, 0, false⟩)

/-- Brick construction of `initializeGame` (lines 121-151): grid positions with
fixed margins, sizes from the design width, sequential ids (the source assigns
`brickId++` in row-major order, equal to the flattened index). -/
def buildBricks (cfg : Config) (ld : LevelData) : List Brick :=
  let maxRowLength := (ld.rows.map List.length).foldr max 0
  let designBrickWidth : ℚ := (320 - ((maxRowLength : ℚ) + 1) * 3) / (maxRowLength : ℚ)
  let brickWidth := designBrickWidth * cfg.scale
  let brickHeight : ℚ := 25 * cfg.scale
  let cells := (ld.rows.enum.map (fun rowPair =>
    rowPair.2.enum.map (fun colPair => ((rowPair.1, colPair.1), colPair.2)))).flatten
  cells.enum.map (fun c =>
    { id := c.1,
      shape := defaultShape c.2.2.shape,
      x := (c.2.1.2 : ℚ) * (brickWidth + cfg.brickMargin) + cfg.brickMargin,
      y := (c.2.1.1 : ℚ) * (brickHeight + cfg.brickMargin) + cfg.headerHeight,
      width := brickWidth,
      height := brickHeight,
      visible := true,
      hits := c.2.2.hits,
      color := c.2.2.color,
      points := c.2.2.points,
      givesBall := c.2.2.givesBall })

/-- Mirror of `initializeGame` (lines 93-157): reset the turn state and anchor,
build the ball pool from the current ball count, and either install the level
layout or — when `levelsData.levels[level - 1]` is missing — set the status to
won and return without touching balls or bricks. -/
def initializeGame (cfg : Config) (levels : List LevelData) (level : ℕ) (s : GameSim) :
    GameSim :=
  let s0 := { s with
    isLaunching := false,
    lastTurnHadLaunch := false,
    launchQueue := [],
    lastBallX := cfg.initialLaunchX }
  let initialBalls := mkInitialBalls cfg s.ballCount
  match levels.get? (level - 1) with
  | none => { s0 with level := level, gameStatus := GameStatus.won }
  | some levelData =>
    { s0 with
      bricks := buildBricks cfg levelData,
      balls := initialBalls,
      level := level,
      gameStatus := GameStatus.playing }

/-- Weighted brick type of the procedural level generator
(src/unnamed/part_000). -/
structure BrickType where
  color : String
  points : ℤ
  hits : ℤ
  probability : ℚ
deriving Repr, DecidableEq

/-- The `BRICK_TYPES` table of src/unnamed/part_000 (lines 54-59). -/
def BRICK_TYPES : List BrickType :=
  [⟨"#4CAF50", 1, 1, 6/10⟩,
   ⟨"#2196F3", 2, 2, 25/100⟩,
   ⟨"#FFC107", 3, 1, 1/10⟩,
   ⟨"#9C27B0", 5, 3, 5/100⟩]

/-- The accumulation loop of `selectBrickType`: `cumProb += type.probability;
if (rand < cumProb) return type;`. -/
def selectBrickTypeGo (rand : ℚ) : ℚ → List BrickType → Option BrickType
  | _, [] => none
  | cumProb, t :: ts =>
    if rand < cumProb + t.probability then some t
    else selectBrickTypeGo rand (cumProb + t.probability) ts

/-- Mirror of `selectBrickType` (src/unnamed/part_000 lines 951-961): walk the
table accumulating probabilities; when the loop falls through, the source
executes `return types[0]`. -/
def selectBrickType (rand : ℚ) (types : List BrickType) : Option BrickType :=
  match selectBrickTypeGo rand 0 types with
  | some t => some t
  | none => types.head?

/-- Index of the first entry whose cumulative probability sum exceeds the
draw, used to characterise the sampler. -/
def matchIndexGo (rand : ℚ) : ℚ → List BrickType → Option ℕ
  | _, [] => none
  | acc, t :: ts =>
    if rand < acc + t.probability then some 0
    else (matchIndexGo rand (acc + t.probability) ts).map (· + 1)

/-- Sum of the probability column of a type table. -/
def probSum (types : List BrickType) : ℚ :=
  (types.map BrickType.probability).sum

/-! Concrete fixtures for the closed runs below. -/

/-- A small concrete configuration (design-space numbers, scale 1). -/
def cfg0 : Config :=
  { ballRadius := 1, deviceWidth := 100, headerHeight := 10, launchY := 80,
    lossLine := 60, brickDropAmount := 5, initialLaunchX := 50,
    brickMargin := 2, scale := 1 }

/-- A base simulation state before any level is installed. -/
def sim0 : GameSim :=
  { balls := [], bricks := [], score := 0, ballCount := 1, isLaunching := false,
    launchQueue := [], lastLaunchTime := 0, lastBallX := 0,
    lastTurnHadLaunch := false, level := 1, gameStatus := GameStatus.playing }

/-- A one-brick level: a single square brick of hit count 1. -/
def lvl1 : LevelData :=
  ⟨[[{ shape := some "sqr", hits := 1, color := "#4CAF50", points := 1, givesBall := false }]]⟩

/-- The post-release state of the one-brick scenario: level 1 of `lvl1`
initialised with a single ball, then released straight up at 100 px/s. -/
def simC4start : GameSim :=
  release (initializeGame cfg0 [lvl1] 1 sim0) 0 (-100) 0

/-- Frame driver: apply `advanceFrame` over a list of (timestamp, deltaTime)
pairs. -/
def runFrames (cfg : Config) : GameSim → List (ℚ × ℚ) → GameSim
  | s, [] => s
  | s, f :: fs => runFrames cfg (advanceFrame cfg s f.1 f.2) fs

/-- Nine steady frames, 100 ms apart. -/
def frames9 : List (ℚ × ℚ) :=
  [(0, 100), (100, 100), (200, 100), (300, 100), (400, 100),
   (500, 100), (600, 100), (700, 100), (800, 100)]

/-- Final state of the one-brick scenario. -/
def simC4end : GameSim := runFrames cfg0 simC4start frames9

/-- A brick in the ball's path that grants a bonus ball on destruction. -/
def brickBonus : Brick :=
  { id := 0, shape := "sqr", x := 40, y := 20, width := 20, height := 5,
    visible := true, hits := 1, color := "#FFC107", points := 3, givesBall := true }

/-- Same brick without the bonus flag. -/
def brickPlain : Brick := { brickBonus with color := "#4CAF50", points := 1, givesBall := false }

/-- Mid-turn state: one launched ball one tick away from `brickBonus`. -/
def simC9 : GameSim :=
  { balls := [⟨0, 50, 30, 0, -100, true⟩], bricks := [brickBonus], score := 0,
    ballCount := 1, isLaunching := true, launchQueue := [], lastLaunchTime := 0,
    lastBallX := 50, lastTurnHadLaunch := true, level := 1,
    gameStatus := GameStatus.playing }

/-- Mid-turn state over a plain brick, used for the recall run. -/
def simC3 : GameSim := { simC9 with bricks := [brickPlain] }

/-- Ten parked balls with a full launch queue released at time 0. -/
def simC6 : GameSim :=
  { balls := mkInitialBalls cfg0 10,
    bricks := [brickPlain], score := 0, ballCount := 10, isLaunching := true,
    launchQueue := (mkInitialBalls cfg0 10).map (fun b => { b with dy := -100 }),
    lastLaunchTime := -150, lastBallX := 50, lastTurnHadLaunch := true,
    level := 1, gameStatus := GameStatus.playing }

/-- Ten steady timestamps, 150 ms apart. -/
def ts10 : List ℚ :=
  [0, 150, 300, 450, 600, 750, 900, 1050, 1200, 1350]

/-- Timestamps at which `handleQueuedLaunches` released a ball, over a stream
of frame timestamps. -/
def releaseTimes : GameSim → List ℚ → List ℚ
  | _, [] => []
  | s, t :: ts =>
    let s' := handleQueuedLaunches s t
    if s'.launchQueue.length < s.launchQueue.length then t :: releaseTimes s' ts
    else releaseTimes s' ts

/-! Claims: supporting lemmas, then one theorem per claim. -/

/-- The turn-end gate of the `useEffect`: all balls parked, no launch sequence
active, and the turn included at least one launch. -/
def turnGate (s : GameSim) : Prop :=
  s.balls.all (fun b => !b.launched) = true ∧ s.isLaunching = false ∧
  s.lastTurnHadLaunch = true

/-- Number of launched balls in a fleet. -/
def launchedCount (balls : List Ball) : ℕ :=
  (balls.filter (fun b => b.launched)).length

/-- Claim C8: the per-turn descent adds the fixed drop amount to every brick's
vertical position unconditionally — visible and invisible alike — and leaves
every other field of every brick unchanged. -/
theorem C8_descend_unconditional (cfg : Config) (bricks : List Brick) :
    (descendBricks cfg bricks).length = bricks.length ∧
    ∀ j b, bricks.get? j = some b →
      (descendBricks cfg bricks).get? j =
        some { b with y := b.y + cfg.brickDropAmount } := by
  constructor
  · simp [descendBricks]
  · intro j b hb
    unfold descendBricks
    rw [List.get?_map, hb]
    rfl

/-- Witness for C8 at a concrete brick list. -/
theorem C8_descend_unconditional_witness :
    [brickPlain].get? 0 = some brickPlain ∧
    (descendBricks cfg0 [brickPlain]).get? 0 =
      some { brickPlain with y := brickPlain.y + cfg0.brickDropAmount } :=
  ⟨rfl, (C8_descend_unconditional cfg0 [brickPlain]).2 0 brickPlain rfl⟩

/-- Claim C7: for a level index with no layout in the level source,
initialization sets the status to won instead of erroring and performs no
brick-field (or ball-pool) setup for that level. -/
theorem C7_missing_level_won (cfg : Config) (levels : List LevelData)
    (level : ℕ) (s : GameSim) (h : levels.get? (level - 1) = none) :
    (initializeGame cfg levels level s).gameStatus = GameStatus.won ∧
    (initializeGame cfg levels level s).bricks = s.bricks ∧
    (initializeGame cfg levels level s).balls = s.balls ∧
    (initializeGame cfg levels level s).level = level := by
  unfold initializeGame
  rw [h]
  exact ⟨rfl, rfl, rfl, rfl⟩

/-- Witness for C7: level 5 of a single-level source. -/
theorem C7_missing_level_won_witness :
    ([lvl1] : List LevelData).get? (5 - 1) = none ∧
    (initializeGame cfg0 [lvl1] 5 sim0).gameStatus = GameStatus.won ∧
    (initializeGame cfg0 [lvl1] 5 sim0).bricks = sim0.bricks ∧
    (initializeGame cfg0 [lvl1] 5 sim0).balls = sim0.balls ∧
    (initializeGame cfg0 [lvl1] 5 sim0).level = 5 :=
  ⟨rfl, C7_missing_level_won cfg0 [lvl1] 5 sim0 rfl⟩

/-- The accumulation loop returns the entry at the first matching index. -/
lemma selectBrickTypeGo_eq_matchIndexGo (rand : ℚ) :
    ∀ (types : List BrickType) (acc : ℚ),
      selectBrickTypeGo rand acc types =
        (matchIndexGo rand acc types).bind types.get? := by
  intro types
  induction types with
  | nil => intro acc; rfl
  | cons t ts ih =>
    intro acc
    simp only [selectBrickTypeGo, matchIndexGo]
    split
    · rfl
    · rw [ih (acc + t.probability)]
      cases h : matchIndexGo rand (acc + t.probability) ts <;> simp [h]

/-- A matching index is always in range. -/
lemma matchIndexGo_lt_length (rand : ℚ) :
    ∀ (types : List BrickType) (acc : ℚ) (j : ℕ),
      matchIndexGo rand acc types = some j → j < types.length := by
  intro types
  induction types with
  | nil => intro acc j h; exact absurd h (by simp [matchIndexGo])
  | cons t ts ih =>
    intro acc j h
    unfold matchIndexGo at h
    split at h
    · cases h; simp
    · cases hm : matchIndexGo rand (acc + t.probability) ts with
      | none => rw [hm] at h; simp at h
      | some j' =>
        rw [hm] at h
        simp only [Option.map_some'] at h
        cases h
        have := ih (acc + t.probability) j' hm
        simp only [List.length_cons]
        omega

/-- When the draw is at least the whole (nonnegative) cumulative mass, the walk
matches no entry. -/
lemma matchIndexGo_none_of_ge (rand : ℚ) :
    ∀ (types : List BrickType) (acc : ℚ),
      (∀ t ∈ types, 0 ≤ t.probability) → acc + probSum types ≤ rand →
      matchIndexGo rand acc types = none := by
  intro types
  induction types with
  | nil => intros; rfl
  | cons t ts ih =>
    intro acc hn hs
    have hts : 0 ≤ probSum ts := by
      apply List.sum_nonneg
      intro x hx
      obtain ⟨u, hu, rfl⟩ := List.mem_map.mp hx
      exact hn u (List.mem_cons_of_mem _ hu)
    have hsum : probSum (t :: ts) = t.probability + probSum ts := by
      simp [probSum]
    rw [hsum] at hs
    unfold matchIndexGo
    rw [if_neg (by linarith), ih (acc + t.probability) (fun u hu => hn u (List.mem_cons_of_mem _ hu)) (by linarith)]
    rfl

/-- Claim C2 (amended): the sampler walks the table and returns the first
entry whose cumulative probability sum exceeds the draw; when the draw remains
unmatched after the walk (in particular whenever it is at least the whole
cumulative mass of a nonnegative table), the source's fallback
`return types[0]` yields the FIRST table entry, not the last. -/
theorem C2_sampler_first_match_head_fallback (rand : ℚ) (types : List BrickType) :
    (∀ j, matchIndexGo rand 0 types = some j →
      j < types.length ∧ selectBrickType rand types = types.get? j) ∧
    (matchIndexGo rand 0 types = none →
      selectBrickType rand types = types.head?) ∧
    ((∀ t ∈ types, 0 ≤ t.probability) → probSum types ≤ rand →
      matchIndexGo rand 0 types = none) := by
  refine ⟨?_, ?_, ?_⟩
  · intro j hj
    refine ⟨matchIndexGo_lt_length rand types 0 j hj, ?_⟩
    unfold selectBrickType
    rw [selectBrickTypeGo_eq_matchIndexGo, hj]
    show (match types.get? j with
          | some t => some t
          | none => types.head?) = types.get? j
    cases hg : types.get? j with
    | none =>
      have hlen := List.get?_eq_none.mp hg
      have hlt := matchIndexGo_lt_length rand types 0 j hj
      omega
    | some t => rfl
  · intro hn
    unfold selectBrickType
    rw [selectBrickTypeGo_eq_matchIndexGo, hn]
    rfl
  · intro hp hs
    exact matchIndexGo_none_of_ge rand types 0 hp (by linarith)

/-- Two-entry probability table with total mass 3/4, as a fixture for the
unmatched-draw fallback. -/
def typeTableAB : List BrickType :=
  [⟨"A", 1, 1, 1/2⟩, ⟨"B", 2, 2, 1/4⟩]

/-- Witness for C2's amended theorem: the unmatched draw 9/10 over a
two-entry table with mass 3/4 falls back to the first entry. -/
theorem C2_sampler_first_match_head_fallback_witness :
    matchIndexGo (9/10) 0 typeTableAB = none ∧
    selectBrickType (9/10) typeTableAB = typeTableAB.head? :=
  ⟨by norm_num [matchIndexGo, typeTableAB],
   (C2_sampler_first_match_head_fallback (9/10) typeTableAB).2.1
     (by norm_num [matchIndexGo, typeTableAB])⟩

/-- Counterexample to claim C2 as stated: an unmatched draw returns the first
table entry, not the last one. -/
theorem C2_counterexample :
    probSum typeTableAB ≤ 9/10 ∧
    selectBrickType (9/10) typeTableAB = some ⟨"A", 1, 1, 1/2⟩ ∧
    typeTableAB.getLast? = some ⟨"B", 2, 2, 1/4⟩ ∧
    selectBrickType (9/10) typeTableAB ≠ typeTableAB.getLast? := by
  have h1 : selectBrickType (9/10) typeTableAB = some ⟨"A", 1, 1, 1/2⟩ := by
    norm_num [selectBrickType, selectBrickTypeGo, typeTableAB]
  have h2 : typeTableAB.getLast? = some ⟨"B", 2, 2, 1/4⟩ := rfl
  refine ⟨by norm_num [probSum, typeTableAB], h1, h2, ?_⟩
  rw [h1, h2]
  intro h
  simp only [Option.some.injEq, BrickType.mk.injEq] at h
  exact absurd h.1 (by simp)

/-- Claim C5: at the end of every turn that included a launch and left at
least one brick visible, descent is applied, and the status becomes lost iff
after that descent some visible brick's vertical position exceeds the loss
boundary; a turn with zero brick destructions still descends. -/
theorem C5_descent_and_loss (cfg : Config) (s : GameSim)
    (hp : s.gameStatus = GameStatus.playing)
    (h1 : s.balls.all (fun b => !b.launched) = true)
    (h2 : s.isLaunching = false)
    (h3 : s.lastTurnHadLaunch = true)
    (hv : 0 < (s.bricks.filter (fun b => b.visible)).length) :
    (checkTurnEnd cfg s).bricks = descendBricks cfg s.bricks ∧
    ((checkTurnEnd cfg s).gameStatus = GameStatus.lost ↔
      (descendBricks cfg s.bricks).any
        (fun b => b.visible && decide (cfg.lossLine < b.y)) = true) := by
  have hnw : ¬(0 < s.bricks.length ∧
      (s.bricks.filter (fun b => b.visible)).length = 0) := by
    omega
  unfold checkTurnEnd
  rw [if_neg (by simp [hp]), if_pos ⟨h1, h2, h3⟩, if_neg hnw, if_pos hv]
  dsimp only
  split
  · exact ⟨rfl, by simp_all⟩
  · rename_i hany
    refine ⟨rfl, ?_⟩
    simp only [hp]
    constructor
    · intro hl; exact absurd hl (by simp)
    · intro ha; exact absurd ha (by simp [hany])

/-- Witness for C5: the parked state after a recall over one surviving brick
descends it by the drop amount and stays below the loss line. -/
theorem C5_descent_and_loss_witness :
    (recallBalls cfg0 simC3).gameStatus = GameStatus.playing ∧
    ((checkTurnEnd cfg0 (recallBalls cfg0 simC3)).bricks =
      descendBricks cfg0 (recallBalls cfg0 simC3).bricks ∧
     ((checkTurnEnd cfg0 (recallBalls cfg0 simC3)).gameStatus = GameStatus.lost ↔
      (descendBricks cfg0 (recallBalls cfg0 simC3).bricks).any
        (fun b => b.visible && decide (cfg0.lossLine < b.y)) = true)) :=
  ⟨rfl, C5_descent_and_loss cfg0 (recallBalls cfg0 simC3) rfl rfl rfl rfl
    (by norm_num [recallBalls, simC3, brickBonus, brickPlain])⟩

/-- Claim C4: at a turn boundary in the playing state, the status becomes won
iff the turn gate holds, the level started with at least one brick, and no
brick is visible; when the win fires the brick field is unchanged.  In
particular the concrete one-brick one-ball run ends won with the brick's
position untouched. -/
theorem C4_win_condition :
    (∀ (cfg : Config) (s : GameSim), s.gameStatus = GameStatus.playing →
      (((checkTurnEnd cfg s).gameStatus = GameStatus.won) ↔
        (turnGate s ∧ 0 < s.bricks.length ∧
         (s.bricks.filter (fun b => b.visible)).length = 0)) ∧
      ((checkTurnEnd cfg s).gameStatus = GameStatus.won →
        (checkTurnEnd cfg s).bricks = s.bricks)) ∧
    (simC4start.bricks.map (fun b => b.hits) = [1] ∧
     simC4start.balls.length = 1 ∧
     simC4end.gameStatus = GameStatus.won ∧
     simC4end.bricks.map (fun b => b.y) = simC4start.bricks.map (fun b => b.y)) := by
  constructor
  · intro cfg s hp
    unfold checkTurnEnd
    rw [if_neg (by simp [hp])]
    by_cases hg : (s.balls.all (fun b => !b.launched)) = true ∧
        s.isLaunching = false ∧ s.lastTurnHadLaunch = true
    · rw [if_pos hg]
      by_cases hw : 0 < s.bricks.length ∧
          (s.bricks.filter (fun b => b.visible)).length = 0
      · rw [if_pos hw]
        dsimp only
        exact ⟨by simp [turnGate, hg, hw], fun _ => rfl⟩
      · rw [if_neg hw]
        by_cases hv : 0 < (s.bricks.filter (fun b => b.visible)).length
        · rw [if_pos hv]
          dsimp only
          split
          · constructor
            · constructor
              · intro h; exact absurd h (by simp)
              · intro h; exact absurd h.2 hw
            · intro h; exact absurd h (by simp)
          · constructor
            · rw [hp]
              constructor
              · intro h; exact absurd h (by simp)
              · intro h; exact absurd h.2 hw
            · rw [hp]
              intro h; exact absurd h (by simp)
        · rw [if_neg hv]
          dsimp only
          rw [hp]
          constructor
          · constructor
            · intro h; exact absurd h (by simp)
            · intro h; exact absurd h.2 hw
          · intro h; exact absurd h (by simp)
    · rw [if_neg hg]
      rw [hp]
      constructor
      · constructor
        · intro h; exact absurd h (by simp)
        · intro h; exact absurd h.1 hg
      · intro h; exact absurd h (by simp)
  · refine ⟨?_, ?_, ?_, ?_⟩ <;>
      norm_num [simC4end, runFrames, frames9, advanceFrame, simC4start, release,
        initializeGame, mkInitialBalls, buildBricks, lvl1, sim0, cfg0,
        handleQueuedLaunches, launchBall, updateBallsAndBricks, runBalls, stepBall,
        updateBallPosition, resolveBrickCollision, findHitBrick, overlapsBrick,
        applyBrickHit, endTurn, checkTurnEnd, descendBricks, defaultShape,
        List.range, List.range.loop]

/-- Witness for C4's quantified part at a concrete playing state. -/
theorem C4_win_condition_witness :
    sim0.gameStatus = GameStatus.playing ∧
    ((((checkTurnEnd cfg0 sim0).gameStatus = GameStatus.won) ↔
       (turnGate sim0 ∧ 0 < sim0.bricks.length ∧
        (sim0.bricks.filter (fun b => b.visible)).length = 0)) ∧
     ((checkTurnEnd cfg0 sim0).gameStatus = GameStatus.won →
       (checkTurnEnd cfg0 sim0).bricks = sim0.bricks)) :=
  ⟨rfl, C4_win_condition.1 cfg0 sim0 rfl⟩

/-- Counterexample to claim C3 as stated: when a release had already started
the turn (`lastTurnHadLaunch = true`), a recall parks everything and the
turn-end check that follows the state change DOES fire — the brick field
descends as a consequence of the recall. -/
theorem C3_counterexample :
    simC3.lastTurnHadLaunch = true ∧
    (recallBalls cfg0 simC3).isLaunching = false ∧
    ((recallBalls cfg0 simC3).balls.all (fun b => !b.launched)) = true ∧
    simC3.bricks.map (fun b => b.y) = [20] ∧
    (checkTurnEnd cfg0 (recallBalls cfg0 simC3)).bricks.map (fun b => b.y) = [25] ∧
    (checkTurnEnd cfg0 (recallBalls cfg0 simC3)).bricks ≠ simC3.bricks := by
  have hy : (checkTurnEnd cfg0 (recallBalls cfg0 simC3)).bricks.map (fun b => b.y) =
      [25] := by
    norm_num [checkTurnEnd, recallBalls, simC3, simC9, brickPlain, brickBonus,
      descendBricks, cfg0]
  refine ⟨rfl, rfl, rfl, rfl, hy, ?_⟩
  intro h
  rw [h] at hy
  norm_num [simC3, simC9, brickPlain, brickBonus] at hy

/-- Claim C3 (amended): `recall()` parks every ball at the current anchor with
zero velocity, discards the queue and stops the launch sequence, touching
neither bricks nor status itself; when no release had started the turn the
subsequent turn-end check is a no-op, but when one had, the turn-end check
does fire (descent and win/loss checks can follow a recall). -/
theorem C3_recall_amended (cfg : Config) (s : GameSim) :
    ((recallBalls cfg s).balls = s.balls.map (fun b =>
        { b with x := s.lastBallX, y := cfg.launchY, dx := 0, dy := 0,
                 launched := false }) ∧
     (recallBalls cfg s).isLaunching = false ∧
     (recallBalls cfg s).launchQueue = [] ∧
     (recallBalls cfg s).bricks = s.bricks ∧
     (recallBalls cfg s).gameStatus = s.gameStatus) ∧
    (s.lastTurnHadLaunch = false →
      checkTurnEnd cfg (recallBalls cfg s) = recallBalls cfg s) := by
  refine ⟨⟨rfl, rfl, rfl, rfl, rfl⟩, ?_⟩
  intro h
  unfold checkTurnEnd
  split
  · rfl
  · dsimp only
    rw [if_neg]
    intro hc
    exact absurd hc.2.2 (by simp [recallBalls, h])

/-- Witness for C3's amended theorem at a no-launch state. -/
theorem C3_recall_amended_witness :
    sim0.lastTurnHadLaunch = false ∧
    checkTurnEnd cfg0 (recallBalls cfg0 sim0) = recallBalls cfg0 sim0 :=
  ⟨rfl, (C3_recall_amended cfg0 sim0).2 rfl⟩

/-- The ball loop returns exactly one ball per input ball. -/
lemma runBalls_length (cfg : Config) (d : ℚ) :
    ∀ (balls : List Ball) (acc : TickAcc),
      (runBalls cfg d acc balls).1.length = balls.length := by
  intro balls
  induction balls with
  | nil => intro acc; rfl
  | cons b bs ih => intro acc; simp [runBalls, ih]

/-- A physics tick never changes the size of the ball pool. -/
lemma updateBallsAndBricks_balls_length (cfg : Config) (s : GameSim) (dt : ℚ) :
    (updateBallsAndBricks cfg s dt).balls.length = s.balls.length := by
  unfold updateBallsAndBricks
  dsimp only
  split
  · simp [endTurn, runBalls_length]
  · simp [runBalls_length]

/-- Counterexample to claim C9 as stated: destroying a bonus-flagged brick
increments the ball COUNT immediately, but adds no ball to the fleet — the
pool keeps its size until the next level initialization. -/
theorem C9_counterexample :
    simC9.balls.length = 1 ∧ simC9.ballCount = 1 ∧
    simC9.bricks.map (fun b => b.givesBall) = [true] ∧
    (updateBallsAndBricks cfg0 simC9 100).bricks.map (fun b => b.visible) = [false] ∧
    (updateBallsAndBricks cfg0 simC9 100).ballCount = 2 ∧
    (updateBallsAndBricks cfg0 simC9 100).balls.length = 1 ∧
    ¬((updateBallsAndBricks cfg0 simC9 100).balls.length = simC9.balls.length + 1) := by
  refine ⟨rfl, rfl, rfl, ?_, ?_, ?_, ?_⟩ <;>
    norm_num [updateBallsAndBricks, runBalls, stepBall, updateBallPosition,
      resolveBrickCollision, findHitBrick, overlapsBrick, applyBrickHit, endTurn,
      simC9, brickBonus, cfg0]

/-- Claim C9 (amended): the pool is created at level start with size equal to
the current ball count; a bonus destruction immediately increments the ball
count by exactly one, while the fleet size is unchanged by every tick (the
extra ball only materializes at the next level initialization). -/
theorem C9_pool_size_and_bonus_count :
    (∀ (cfg : Config) (levels : List LevelData) (lvl : ℕ) (s : GameSim)
       (ld : LevelData), levels.get? (lvl - 1) = some ld →
       (initializeGame cfg levels lvl s).balls.length = s.ballCount) ∧
    (∀ (cfg : Config) (s : GameSim) (dt : ℚ),
       (updateBallsAndBricks cfg s dt).balls.length = s.balls.length) ∧
    (∀ (acc : TickAcc) (j : ℕ) (b : Brick),
       acc.bricks.get? j = some b → b.hits - 1 ≤ 0 → b.givesBall = true →
       (applyBrickHit acc j).ballCount = acc.ballCount + 1) := by
  refine ⟨?_, ?_, ?_⟩
  · intro cfg levels lvl s ld hld
    unfold initializeGame
    rw [hld]
    simp [mkInitialBalls]
  · intro cfg s dt
    exact updateBallsAndBricks_balls_length cfg s dt
  · intro acc j b hb hdest hbonus
    unfold applyBrickHit
    rw [hb]
    dsimp only
    rw [if_pos hdest, hbonus]
    simp

/-- Witness for C9's amended theorem at concrete inputs. -/
theorem C9_pool_size_and_bonus_count_witness :
    ([lvl1] : List LevelData).get? (1 - 1) = some lvl1 ∧
    (initializeGame cfg0 [lvl1] 1 sim0).balls.length = sim0.ballCount ∧
    ([brickBonus].get? 0 = some brickBonus ∧ brickBonus.hits - 1 ≤ 0 ∧
     brickBonus.givesBall = true ∧
     (applyBrickHit ⟨[brickBonus], 50, 0, 1, true⟩ 0).ballCount =
       (⟨[brickBonus], 50, 0, 1, true⟩ : TickAcc).ballCount + 1) :=
  ⟨rfl, C9_pool_size_and_bonus_count.1 cfg0 [lvl1] 1 sim0 lvl1 rfl,
   rfl, by norm_num [brickBonus], rfl,
   C9_pool_size_and_bonus_count.2.2 ⟨[brickBonus], 50, 0, 1, true⟩ 0 brickBonus rfl
     (by norm_num [brickBonus]) rfl⟩

/-- The brick scan returns an index at or past its start, pointing at a
visible brick of the list. -/
lemma findHitBrick_some (cfg : Config) (newX newY : ℚ) :
    ∀ (bs : List Brick) (n j : ℕ) (b : Brick),
      findHitBrick cfg newX newY n bs = some (j, b) →
      n ≤ j ∧ bs.get? (j - n) = some b ∧ b.visible = true := by
  intro bs
  induction bs with
  | nil => intro n j b h; exact Option.noConfusion h
  | cons c cs ih =>
    intro n j b h
    unfold findHitBrick at h
    split at h
    · rename_i hc
      cases h
      exact ⟨Nat.le_refl _, by simp, hc.1⟩
    · obtain ⟨h1, h2, h3⟩ := ih (n + 1) j b h
      refine ⟨by omega, ?_, h3⟩
      have he : j - n = (j - (n + 1)) + 1 := by omega
      rw [he]
      simpa using h2

/-- The brick-resolution block only reports visible bricks of the list. -/
lemma resolveBrickCollision_hit_visible (cfg : Config) (ball : Ball) (d : ℚ)
    (bricks : List Brick) (X Y dx1 dy1 : ℚ) (j : ℕ)
    (h : (resolveBrickCollision cfg ball d bricks X Y dx1 dy1).hit = some j) :
    ∃ b, bricks.get? j = some b ∧ b.visible = true := by
  unfold resolveBrickCollision at h
  split at h
  · exact Option.noConfusion h
  · rename_i j' brick hfind
    dsimp only at h
    have hf := findHitBrick_some cfg X Y bricks 0 j' brick hfind
    split at h
    all_goals
      cases h
      exact ⟨brick, by simpa using hf.2.1, hf.2.2⟩

/-- A resolved collision always points at a visible brick: invisible bricks
are never tested. -/
lemma updateBallPosition_hit_visible (cfg : Config) (ball : Ball) (d : ℚ)
    (bricks : List Brick) (j : ℕ)
    (h : (updateBallPosition cfg ball d bricks).hit = some j) :
    ∃ b, bricks.get? j = some b ∧ b.visible = true := by
  unfold updateBallPosition at h
  dsimp only at h
  repeat' split at h
  all_goals
    first
      | exact Option.noConfusion h
      | exact resolveBrickCollision_hit_visible cfg ball d bricks _ _ _ _ j h

/-- Claim C10: the brick's points are added exactly on the collision that
brings its hit count to zero (which also grants the bonus ball when flagged),
a non-destroying collision changes neither score nor ball count and keeps the
brick's visibility, and a collision is only ever resolved against a visible
brick — so a destroyed brick is never scored again. -/
theorem C10_scoring_on_destruction :
    (∀ (acc : TickAcc) (j : ℕ) (b : Brick), acc.bricks.get? j = some b →
      (¬(b.hits - 1 ≤ 0) →
        (applyBrickHit acc j).score = acc.score ∧
        (applyBrickHit acc j).ballCount = acc.ballCount ∧
        (applyBrickHit acc j).bricks.get? j =
          some { b with hits := b.hits - 1 }) ∧
      (b.hits - 1 ≤ 0 →
        (applyBrickHit acc j).score = acc.score + b.points ∧
        (applyBrickHit acc j).ballCount =
          acc.ballCount + (if b.givesBall then 1 else 0) ∧
        (applyBrickHit acc j).bricks.get? j =
          some { b with hits := b.hits - 1, visible := false })) ∧
    (∀ (cfg : Config) (ball : Ball) (d : ℚ) (bricks : List Brick) (j : ℕ),
      (updateBallPosition cfg ball d bricks).hit = some j →
      ∃ b, bricks.get? j = some b ∧ b.visible = true) := by
  constructor
  · intro acc j b hb
    have hlt : j < acc.bricks.length := by
      by_contra hge
      rw [List.get?_eq_none.mpr (by omega)] at hb
      exact Option.noConfusion hb
    constructor
    · intro hnd
      unfold applyBrickHit
      rw [hb]
      dsimp only
      rw [if_neg hnd]
      exact ⟨rfl, rfl, List.get?_set_eq_of_lt _ hlt⟩
    · intro hd
      unfold applyBrickHit
      rw [hb]
      dsimp only
      rw [if_pos hd]
      exact ⟨rfl, rfl, List.get?_set_eq_of_lt _ hlt⟩
  · exact fun cfg ball d bricks j h =>
      updateBallPosition_hit_visible cfg ball d bricks j h

/-- Witness for C10 at the bonus brick: destruction adds the points, grants
the bonus ball, and the stored brick is the invisible zero-hit one. -/
theorem C10_scoring_on_destruction_witness :
    [brickBonus].get? 0 = some brickBonus ∧
    brickBonus.hits - 1 ≤ 0 ∧
    ((applyBrickHit ⟨[brickBonus], 50, 0, 1, true⟩ 0).score =
      (⟨[brickBonus], 50, 0, 1, true⟩ : TickAcc).score + brickBonus.points ∧
     (applyBrickHit ⟨[brickBonus], 50, 0, 1, true⟩ 0).ballCount =
      (⟨[brickBonus], 50, 0, 1, true⟩ : TickAcc).ballCount +
        (if brickBonus.givesBall then 1 else 0) ∧
     (applyBrickHit ⟨[brickBonus], 50, 0, 1, true⟩ 0).bricks.get? 0 =
      some { brickBonus with hits := brickBonus.hits - 1, visible := false }) :=
  ⟨rfl, by norm_num [brickBonus],
   ((C10_scoring_on_destruction.1 ⟨[brickBonus], 50, 0, 1, true⟩ 0 brickBonus rfl).2
     (by norm_num [brickBonus]))⟩

/-- Per-brick evolution relation along collision processing: hits only go
down, invisible bricks are frozen, visibility is never restored, a visible
brick with positive hit count keeps the invariant, and all other fields are
unchanged. -/
def brickLe (b b' : Brick) : Prop :=
  b'.hits ≤ b.hits ∧
  (b.visible = false → b' = b) ∧
  (b'.visible = true → b.visible = true) ∧
  (b.visible = true → 1 ≤ b.hits →
    (b'.visible = true → 1 ≤ b'.hits) ∧ (b'.visible = false → b'.hits = 0)) ∧
  b'.x = b.x ∧ b'.y = b.y ∧ b'.width = b.width ∧ b'.height = b.height ∧
  b'.color = b.color ∧ b'.points = b.points ∧ b'.givesBall = b.givesBall ∧
  b'.id = b.id ∧ b'.shape = b.shape

lemma brickLe_refl (b : Brick) : brickLe b b := by
  unfold brickLe
  refine ⟨le_refl _, fun _ => rfl, fun h => h, ?_, rfl, rfl, rfl, rfl, rfl,
    rfl, rfl, rfl, rfl⟩
  intro hv h1
  exact ⟨fun _ => h1, fun hv' => by rw [hv] at hv'; exact Bool.noConfusion hv'⟩

lemma brickLe_trans {a b c : Brick} (hab : brickLe a b) (hbc : brickLe b c) :
    brickLe a c := by
  obtain ⟨h1, h2, h3, h4, hx, hy, hw, hh, hc1, hp, hg, hid, hsh⟩ := hab
  obtain ⟨g1, g2, g3, g4, gx, gy, gw, gh, gc1, gp, gg, gid, gsh⟩ := hbc
  refine ⟨le_trans g1 h1, ?_, fun hcv => h3 (g3 hcv), ?_, by rw [gx, hx],
    by rw [gy, hy], by rw [gw, hw], by rw [gh, hh], by rw [gc1, hc1],
    by rw [gp, hp], by rw [gg, hg], by rw [gid, hid], by rw [gsh, hsh]⟩
  · intro hav
    have hb := h2 hav
    rw [hb] at g2
    exact g2 hav
  · intro hav h1a
    have hprops := h4 hav h1a
    by_cases hbv : b.visible = true
    · exact g4 hbv (hprops.1 hbv)
    · have hbv' : b.visible = false := by
        cases hvb : b.visible
        · rfl
        · exact absurd hvb hbv
      have hcb := g2 hbv'
      constructor
      · intro hcv; rw [hcb] at hcv; exact absurd hcv hbv
      · intro _; rw [hcb]; exact hprops.2 hbv'

/-- Pointwise lifting of `brickLe` to brick lists of equal length. -/
def bricksLe (l l' : List Brick) : Prop :=
  l'.length = l.length ∧
  ∀ j b b', l.get? j = some b → l'.get? j = some b' → brickLe b b'

lemma bricksLe_refl (l : List Brick) : bricksLe l l :=
  ⟨rfl, fun _ b _ hb hb' => by rw [hb] at hb'; cases hb'; exact brickLe_refl b⟩

lemma bricksLe_trans {l m n : List Brick} (hlm : bricksLe l m)
    (hmn : bricksLe m n) : bricksLe l n := by
  obtain ⟨hlen1, h1⟩ := hlm
  obtain ⟨hlen2, h2⟩ := hmn
  refine ⟨by omega, ?_⟩
  intro j b b' hb hb'
  obtain ⟨hj, _⟩ := List.get?_eq_some.mp hb
  have hjm : j < m.length := by omega
  exact brickLe_trans (h1 j b _ hb (List.get?_eq_get hjm))
    (h2 j _ b' (List.get?_eq_get hjm) hb')

/-- Replacing one element by a `brickLe`-successor is a `bricksLe` step. -/
lemma set_bricksLe (l : List Brick) (j : ℕ) (b b1 : Brick)
    (hb : l.get? j = some b) (hle : brickLe b b1) :
    bricksLe l (l.set j b1) := by
  have hlt : j < l.length := by
    by_contra hge
    rw [List.get?_eq_none.mpr (by omega)] at hb
    exact Option.noConfusion hb
  refine ⟨by simp, ?_⟩
  intro k c c' hc hc'
  by_cases hkj : k = j
  · subst hkj
    rw [hb] at hc; cases hc
    rw [List.get?_set_eq_of_lt _ hlt] at hc'; cases hc'
    exact hle
  · rw [List.get?_set_ne _ _ (fun h => hkj h.symm)] at hc'
    rw [hc] at hc'; cases hc'
    exact brickLe_refl _

/-- A collision on a visible brick evolves the brick list along `bricksLe`. -/
lemma applyBrickHit_bricksLe (acc : TickAcc) (j : ℕ)
    (hvis : ∀ b, acc.bricks.get? j = some b → b.visible = true) :
    bricksLe acc.bricks (applyBrickHit acc j).bricks := by
  unfold applyBrickHit
  cases hb : acc.bricks.get? j with
  | none => exact bricksLe_refl _
  | some b =>
    dsimp only
    have hbv := hvis b hb
    split
    · rename_i hd
      refine set_bricksLe _ j b _ hb ?_
      refine ⟨by dsimp only; omega, ?_, ?_, ?_, rfl, rfl, rfl, rfl, rfl, rfl,
        rfl, rfl, rfl⟩
      · intro hbv'; rw [hbv] at hbv'; exact Bool.noConfusion hbv'
      · intro hv'; exact Bool.noConfusion hv'
      · intro _ h1
        exact ⟨fun hv' => Bool.noConfusion hv', fun _ => by dsimp only; omega⟩
    · rename_i hnd
      refine set_bricksLe _ j b _ hb ?_
      refine ⟨by dsimp only; omega, ?_, fun _ => hbv, ?_, rfl, rfl, rfl, rfl,
        rfl, rfl, rfl, rfl, rfl⟩
      · intro hbv'; rw [hbv] at hbv'; exact Bool.noConfusion hbv'
      · intro _ _
        constructor
        · intro _; dsimp only; omega
        · intro hv'; dsimp only at hv'; rw [hbv] at hv'
          exact Bool.noConfusion hv'

/-- One ball step evolves the brick list along `bricksLe`. -/
lemma stepBall_bricksLe (cfg : Config) (d : ℚ) (acc : TickAcc) (ball : Ball) :
    bricksLe acc.bricks (stepBall cfg d acc ball).2.bricks := by
  unfold stepBall
  split
  · exact bricksLe_refl _
  · dsimp only
    split
    · exact bricksLe_refl _
    · split
      · rename_i j hhit
        apply applyBrickHit_bricksLe
        intro b hb
        obtain ⟨b0, hb0, hb0v⟩ :=
          updateBallPosition_hit_visible cfg ball d acc.bricks j hhit
        rw [hb0] at hb; cases hb; exact hb0v
      · exact bricksLe_refl _

/-- The whole ball loop evolves the brick list along `bricksLe`. -/
lemma runBalls_bricksLe (cfg : Config) (d : ℚ) :
    ∀ (balls : List Ball) (acc : TickAcc),
      bricksLe acc.bricks (runBalls cfg d acc balls).2.bricks := by
  intro balls
  induction balls with
  | nil => intro acc; exact bricksLe_refl _
  | cons b bs ih =>
    intro acc
    unfold runBalls
    dsimp only
    exact bricksLe_trans (stepBall_bricksLe cfg d acc b) (ih _)

/-- A physics tick evolves the brick list along `bricksLe`. -/
lemma updateBallsAndBricks_bricksLe (cfg : Config) (s : GameSim) (dt : ℚ) :
    bricksLe s.bricks (updateBallsAndBricks cfg s dt).bricks := by
  unfold updateBallsAndBricks
  dsimp only
  split
  · exact runBalls_bricksLe cfg (dt / 1000)
      s.balls ⟨s.bricks, s.lastBallX, s.score, s.ballCount, true⟩
  · exact runBalls_bricksLe cfg (dt / 1000)
      s.balls ⟨s.bricks, s.lastBallX, s.score, s.ballCount, true⟩

/-- The turn-end check never changes any brick's visibility. -/
lemma checkTurnEnd_visible_eq (cfg : Config) (s : GameSim) (j : ℕ) :
    ((checkTurnEnd cfg s).bricks.get? j).map Brick.visible =
      (s.bricks.get? j).map Brick.visible := by
  unfold checkTurnEnd
  dsimp only
  repeat' split
  all_goals
    first
      | rfl
      | (show ((descendBricks cfg s.bricks).get? j).map Brick.visible =
            (s.bricks.get? j).map Brick.visible
         unfold descendBricks
         rw [List.get?_map]
         cases s.bricks.get? j <;> rfl)

/-- Claim C1: over a physics tick every brick's hit count only decreases —
by exactly one per resolved collision (stated on the collision branch) —
and stays nonnegative; the visible flag flips to false exactly when the hit
count reaches zero; an invisible brick is never touched and never tested for
collision (resolved hits only point at visible bricks); visibility is never
restored by a tick nor by the turn-end check. -/
theorem C1_brick_hit_invariants (cfg : Config) (s : GameSim) (dt : ℚ)
    (hinv : ∀ b ∈ s.bricks, 0 ≤ b.hits ∧ (b.visible = true → 1 ≤ b.hits)) :
    ((updateBallsAndBricks cfg s dt).bricks.length = s.bricks.length ∧
     (∀ j b b', s.bricks.get? j = some b →
        (updateBallsAndBricks cfg s dt).bricks.get? j = some b' →
        (b'.hits ≤ b.hits ∧ 0 ≤ b'.hits) ∧
        (b.visible = false → b' = b) ∧
        (b'.visible = true → b.visible = true ∧ 1 ≤ b'.hits) ∧
        (b.visible = true → b'.visible = false → b'.hits = 0))) ∧
    (∀ (acc : TickAcc) (j : ℕ) (b : Brick), acc.bricks.get? j = some b →
      ((applyBrickHit acc j).bricks.get? j).map Brick.hits = some (b.hits - 1) ∧
      ∀ k, k ≠ j → (applyBrickHit acc j).bricks.get? k = acc.bricks.get? k) ∧
    (∀ (ball : Ball) (d : ℚ) (bricks : List Brick) (j : ℕ),
      (updateBallPosition cfg ball d bricks).hit = some j →
      ∃ b, bricks.get? j = some b ∧ b.visible = true) ∧
    (∀ j, ((checkTurnEnd cfg s).bricks.get? j).map Brick.visible =
      (s.bricks.get? j).map Brick.visible) := by
  refine ⟨?_, ?_, ?_, ?_⟩
  · obtain ⟨hlen, hrel⟩ := updateBallsAndBricks_bricksLe cfg s dt
    refine ⟨hlen, ?_⟩
    intro j b b' hb hb'
    obtain ⟨h0, h1⟩ := hinv b (List.get?_mem hb)
    obtain ⟨g1, g2, g3, g4, _⟩ := hrel j b b' hb hb'
    refine ⟨⟨g1, ?_⟩, g2, ?_, ?_⟩
    · cases hbv : b.visible
      · rw [g2 hbv]; exact h0
      · have h4 := g4 hbv (h1 hbv)
        cases hbv' : b'.visible
        · rw [h4.2 hbv']
        · have := h4.1 hbv'; omega
    · intro hv'
      have hbv := g3 hv'
      exact ⟨hbv, (g4 hbv (h1 hbv)).1 hv'⟩
    · intro hbv hv'
      exact (g4 hbv (h1 hbv)).2 hv'
  · intro acc j b hb
    have hlt : j < acc.bricks.length := by
      by_contra hge
      rw [List.get?_eq_none.mpr (by omega)] at hb
      exact Option.noConfusion hb
    unfold applyBrickHit
    rw [hb]
    dsimp only
    split
    · refine ⟨by rw [List.get?_set_eq_of_lt _ hlt]; rfl, ?_⟩
      intro k hk
      rw [List.get?_set_ne _ _ (fun h => hk h.symm)]
    · refine ⟨by rw [List.get?_set_eq_of_lt _ hlt]; rfl, ?_⟩
      intro k hk
      rw [List.get?_set_ne _ _ (fun h => hk h.symm)]
  · exact fun ball d bricks j h =>
      updateBallPosition_hit_visible cfg ball d bricks j h
  · exact checkTurnEnd_visible_eq cfg s

/-- Witness for C1 at the concrete bonus-brick tick. -/
theorem C1_brick_hit_invariants_witness :
    (∀ b ∈ simC9.bricks, 0 ≤ b.hits ∧ (b.visible = true → 1 ≤ b.hits)) ∧
    (((updateBallsAndBricks cfg0 simC9 100).bricks.length = simC9.bricks.length ∧
      (∀ j b b', simC9.bricks.get? j = some b →
        (updateBallsAndBricks cfg0 simC9 100).bricks.get? j = some b' →
        (b'.hits ≤ b.hits ∧ 0 ≤ b'.hits) ∧
        (b.visible = false → b' = b) ∧
        (b'.visible = true → b.visible = true ∧ 1 ≤ b'.hits) ∧
        (b.visible = true → b'.visible = false → b'.hits = 0))) ∧
     (∀ (acc : TickAcc) (j : ℕ) (b : Brick), acc.bricks.get? j = some b →
       ((applyBrickHit acc j).bricks.get? j).map Brick.hits = some (b.hits - 1) ∧
       ∀ k, k ≠ j → (applyBrickHit acc j).bricks.get? k = acc.bricks.get? k) ∧
     (∀ (ball : Ball) (d : ℚ) (bricks : List Brick) (j : ℕ),
       (updateBallPosition cfg0 ball d bricks).hit = some j →
       ∃ b, bricks.get? j = some b ∧ b.visible = true) ∧
     (∀ j, ((checkTurnEnd cfg0 simC9).bricks.get? j).map Brick.visible =
       (simC9.bricks.get? j).map Brick.visible)) :=
  ⟨by norm_num [simC9, brickBonus],
   C1_brick_hit_invariants cfg0 simC9 100 (by norm_num [simC9, brickBonus])⟩

/-- Case analysis of one `handleQueuedLaunches` call: either nothing happens,
or the delay gate is open and exactly the head of the queue is released. -/
lemma handleQueuedLaunches_spec (s : GameSim) (t : ℚ) :
    (handleQueuedLaunches s t = s ∧
      ¬((handleQueuedLaunches s t).launchQueue.length < s.launchQueue.length)) ∨
    (s.isLaunching = true ∧ 150 ≤ t - s.lastLaunchTime ∧
      (handleQueuedLaunches s t).lastLaunchTime = t ∧
      ∃ blt rest, s.launchQueue = blt :: rest ∧
        (handleQueuedLaunches s t).launchQueue = rest ∧
        (handleQueuedLaunches s t).balls = launchBall s.balls blt) := by
  unfold handleQueuedLaunches
  cases hq : s.launchQueue with
  | nil =>
    left
    constructor
    · rfl
    · rw [hq]
      simp
  | cons blt rest =>
    dsimp only
    split
    · rename_i hc
      right
      exact ⟨hc.1, hc.2, rfl, blt, rest, rfl, rfl, rfl⟩
    · left
      constructor
      · rfl
      · rw [hq]
        simp

/-- Setting one list element grows a filter count by at most one. -/
lemma filter_set_length_le (p : Ball → Bool) :
    ∀ (l : List Ball) (i : ℕ) (b : Ball),
      ((l.set i b).filter p).length ≤ (l.filter p).length + 1 := by
  intro l
  induction l with
  | nil => intro i b; simp
  | cons x xs ih =>
    intro i b
    cases i with
    | zero =>
      simp only [List.set]
      cases hb : p b <;> cases hx : p x <;>
        (simp [List.filter_cons, hb, hx]; try omega)
    | succ i' =>
      simp only [List.set]
      have := ih i' b
      cases hx : p x <;> (simp [List.filter_cons, hx]; omega)

/-- Releasing the queued ball marks at most one extra ball as launched. -/
lemma launchedCount_launchBall_le (balls : List Ball) (blt : Ball) :
    launchedCount (launchBall balls blt) ≤ launchedCount balls + 1 := by
  unfold launchBall launchedCount
  split
  · exact filter_set_length_le _ balls _ _
  · omega

/-- Every recorded release time is at least 150 ms after the incoming
`lastLaunchTime`, and consecutive release times are at least 150 ms apart. -/
lemma releaseTimes_lb_chain :
    ∀ (ts : List ℚ) (s : GameSim),
      (∀ r ∈ releaseTimes s ts, s.lastLaunchTime + 150 ≤ r) ∧
      List.Chain' (fun a b => a + 150 ≤ b) (releaseTimes s ts) := by
  intro ts
  induction ts with
  | nil =>
    intro s
    exact ⟨fun r hr => absurd hr (by simp [releaseTimes]), List.chain'_nil⟩
  | cons t ts ih =>
    intro s
    unfold releaseTimes
    dsimp only
    split
    · rename_i hrel
      rcases handleQueuedLaunches_spec s t with ⟨_, hno⟩ | ⟨_, hdelay, hlast, _⟩
      · exact absurd hrel hno
      · obtain ⟨hbound, hchain⟩ := ih (handleQueuedLaunches s t)
        rw [hlast] at hbound
        constructor
        · intro r hr
          rcases List.mem_cons.mp hr with rfl | hr
          · linarith
          · have := hbound r hr; linarith
        · rw [List.chain'_cons']
          refine ⟨?_, hchain⟩
          intro y hy
          have hmem : y ∈ releaseTimes (handleQueuedLaunches s t) ts :=
            List.mem_of_mem_head? hy
          have := hbound y hmem
          linarith
    · rename_i hrel
      rcases handleQueuedLaunches_spec s t with ⟨heq, _⟩ | ⟨_, _, _, blt, rest, hq, hq', _⟩
      · rw [heq]
        exact ih s
      · exact absurd (by rw [hq, hq']; simp) hrel

/-- Entries of a 150-spaced chain are at least `150 * (j - i)` apart. -/
lemma chain'_le_of_get? :
    ∀ (l : List ℚ), List.Chain' (fun a b => a + 150 ≤ b) l →
      ∀ (i j : ℕ) (a b : ℚ), i ≤ j → l.get? i = some a → l.get? j = some b →
        a + 150 * ((j - i : ℕ) : ℚ) ≤ b := by
  intro l
  induction l with
  | nil => intro _ i j a b _ ha _; exact absurd ha (by simp)
  | cons x xs ih =>
    intro hch i j a b hij ha hb
    cases i with
    | zero =>
      cases ha
      cases j with
      | zero =>
        cases hb
        norm_num
      | succ j' =>
        simp only [List.get?_cons_succ] at hb
        cases xs with
        | nil => exact absurd hb (by simp)
        | cons y ys =>
          obtain ⟨hxy, hch'⟩ := List.chain'_cons.mp hch
          have hy : (y :: ys).get? 0 = some y := rfl
          have hrec := ih hch' 0 j' y b (by omega) hy hb
          simp only [Nat.sub_zero] at hrec ⊢
          push_cast
          linarith
    | succ i' =>
      cases j with
      | zero => exact absurd hij (by omega)
      | succ j' =>
        simp only [List.get?_cons_succ] at ha hb
        have hch' : List.Chain' (fun a b => a + 150 ≤ b) xs := List.Chain'.tail hch
        have hrec := ih hch' i' j' a b (by omega) ha hb
        simpa only [Nat.succ_sub_succ] using hrec

/-- Claim C6: one `handleQueuedLaunches` call either does nothing, or — only
when at least the 150 ms delay has passed since the previous release —
dequeues exactly one ball and marks at most one extra ball launched; recorded
release times over any frame stream are at least `150 * (j - i)` apart, so a
10th release happens no earlier than 1350 ms after the first. -/
theorem C6_launch_cadence :
    (∀ (s : GameSim) (t : ℚ),
      handleQueuedLaunches s t = s ∨
      (150 ≤ t - s.lastLaunchTime ∧
       (handleQueuedLaunches s t).launchQueue.length + 1 = s.launchQueue.length ∧
       launchedCount (handleQueuedLaunches s t).balls ≤ launchedCount s.balls + 1 ∧
       (handleQueuedLaunches s t).lastLaunchTime = t)) ∧
    (∀ (s : GameSim) (ts : List ℚ) (i j : ℕ) (a b : ℚ), i ≤ j →
      (releaseTimes s ts).get? i = some a → (releaseTimes s ts).get? j = some b →
      a + 150 * ((j - i : ℕ) : ℚ) ≤ b) ∧
    (∀ (s : GameSim) (ts : List ℚ) (a b : ℚ),
      (releaseTimes s ts).get? 0 = some a → (releaseTimes s ts).get? 9 = some b →
      a + 1350 ≤ b) := by
  have hgap : ∀ (s : GameSim) (ts : List ℚ) (i j : ℕ) (a b : ℚ), i ≤ j →
      (releaseTimes s ts).get? i = some a → (releaseTimes s ts).get? j = some b →
      a + 150 * ((j - i : ℕ) : ℚ) ≤ b := by
    intro s ts i j a b hij ha hb
    exact chain'_le_of_get? _ (releaseTimes_lb_chain ts s).2 i j a b hij ha hb
  refine ⟨?_, hgap, ?_⟩
  · intro s t
    rcases handleQueuedLaunches_spec s t with ⟨heq, _⟩ | ⟨_, hd, hl, blt, rest, hq, hq', hb⟩
    · left; exact heq
    · right
      refine ⟨hd, by rw [hq, hq']; simp, ?_, hl⟩
      rw [hb]
      exact launchedCount_launchBall_le s.balls blt
  · intro s ts a b ha hb
    have := hgap s ts 0 9 a b (by omega) ha hb
    norm_num at this
    linarith

/-- Witness for C6: ten queued balls released over steady 150 ms frames have
their release times exactly 150 ms apart, so the 10th comes 1350 ms after
the first. -/
theorem C6_launch_cadence_witness :
    (releaseTimes simC6 ts10).get? 0 = some 0 ∧
    (releaseTimes simC6 ts10).get? 9 = some 1350 ∧
    (0 : ℚ) + 1350 ≤ 1350 := by
  have hrt : releaseTimes simC6 ts10 = ts10 := by
    norm_num [releaseTimes, handleQueuedLaunches, launchBall, simC6, ts10,
      mkInitialBalls, cfg0, List.range, List.range.loop, List.findIdx?]
  have hg0 : (releaseTimes simC6 ts10).get? 0 = some 0 := by rw [hrt]; rfl
  have hg9 : (releaseTimes simC6 ts10).get? 9 = some 1350 := by rw [hrt]; rfl
  exact ⟨hg0, hg9, C6_launch_cadence.2.2 simC6 ts10 0 1350 hg0 hg9⟩
